import Mathlib

/-!
Verification of the crawl-orchestration engine of the ohara repository
(scraper-v2 and scraper-v3 Swiggy pipelines), as a shallow embedding of
the Python source into Lean.

Conventions of the embedding:
* the on-disk page store of a category (one JSON file per page) is a
  `List PageFile`, one entry per `<name>_page_<n>.json` file, carrying the
  metadata fields the engine reads back (`page_no`, `has_more`, `offset`,
  `next_offset`) plus the product count the engine recomputes from the
  stored payload;
* network fetches are scripted: a run consumes a list of prearranged
  fetch results, and emits a trace of `Event`s (fetch calls, page saves,
  error-record saves) so that theorems can speak about which requests the
  engine actually issued;
* Python's `-1` completion sentinel of `get_next_page_to_scrape` is
  rendered as `none` of an `Option Nat`;
* floats that only ever hold exact small dyadic values (backoff delays)
  are modelled as rationals.
-/

/-- Boolean substring test: Python's `pat in s` on strings, decided via the
infix relation on the underlying character lists. -/
def containsSubstr (s pat : String) : Bool :=
  decide (pat.toList <:+: s.toList)

namespace V2

/-- Metadata of one persisted page file of a category, as written by
`save_category_page_response` in scraper-v2/swiggy/utils/common.py and read
back by the resume logic: the `metadata` block's `page_no`, `has_more`,
`offset` (request cursor used) and `next_offset` fields, together with the
product count that `count_products_in_response` yields on the stored
`raw_response`. -/
structure PageFile where
  pageNo : Nat
  hasMore : Bool
  offset : Nat
  nextOffset : Nat
  products : Nat
deriving DecidableEq, Repr

/-- The page files persisted for one category. -/
abbrev Store := List PageFile

/-- Model of `get_existing_pages`: the page numbers of the files present for
the category, sorted ascending. -/
def get_existing_pages (store : Store) : List Nat :=
  List.insertionSort (· ≤ ·) (store.map (·.pageNo))

/-- Reading the stored file for page `n`: the first file whose page number
matches. -/
def findPage (store : Store) (n : Nat) : Option PageFile :=
  store.find? (fun f => f.pageNo == n)

/-- The scan of `get_next_page_to_scrape` over the sorted existing page
numbers: the first index `i` whose entry differs from `i` (a gap), else the
length of the list. -/
def firstGapAux : List Nat → Nat → Nat
  | [], i => i
  | p :: rest, i => if p ≠ i then i else firstGapAux rest (i + 1)

/-- Model of `get_next_page_to_scrape` (scraper-v2/swiggy/utils/common.py):
`none` stands for the Python sentinel `-1` (category complete, the
highest-numbered page has `has_more = False`); otherwise the first missing
page number in the contiguous sequence from 0, else the count of existing
pages. A missing or unreadable last-page file falls through to the gap scan
exactly as the Python `try`/`except` does. -/
def get_next_page_to_scrape (store : Store) : Option Nat :=
  let existing := get_existing_pages store
  if existing.isEmpty then some 0
  else
    let last := existing.foldl max 0
    let hasMore := ((findPage store last).map (·.hasMore)).getD true
    if hasMore = false then none
    else some (firstGapAux existing 0)

/-- Accumulation of `(pages_scraped, total_products_scraped)` over the
existing page files, as the resume paths of `scrape_category_with_pagination`
perform it: iterate the existing page numbers, and for each one whose file
is found add one page and its stored product count. -/
def countExisting (store : Store) : Nat × Nat :=
  (get_existing_pages store).foldl
    (fun acc p =>
      match findPage store p with
      | some f => (acc.1 + 1, acc.2 + f.products)
      | none => acc)
    (0, 0)

/-- Model of `is_rate_limited` (scraper-v2/swiggy/utils/common.py):
status code 202, 429 or 503, or one of the known rate-limit signatures in
the error message. -/
def is_rate_limited (status_code : Nat) (error_msg : String) : Bool :=
  (status_code == 202) ||
  (status_code == 429) ||
  (status_code == 503) ||
  containsSubstr error_msg "Non-200 status code: 202" ||
  containsSubstr error_msg "JSON decode error" ||
  containsSubstr error_msg.toLower "rate limit" ||
  containsSubstr error_msg.toLower "too many requests"

/-- Model of `exponential_backoff` (scraper-v2/swiggy/utils/common.py):
`min(base_delay * 2 ** attempt, max_delay)`, with the float delays rendered
as rationals (the defaults are `base_delay = 15.0`, `max_delay = 120.0`). -/
def exponential_backoff (attempt : Nat) (base_delay max_delay : ℚ) : ℚ :=
  min (base_delay * 2 ^ attempt) max_delay

/-- The in-line backoff of `fetch_page_with_playwright`
(scraper-v2/swiggy/step3_scrape_discovered_categories_playwright.py,
`delay = base_backoff_seconds * (2 ** attempt)` with
`base_backoff_seconds = 5.0`): note the absence of any cap. -/
def playwrightBackoffDelay (attempt : Nat) : ℚ :=
  5 * 2 ^ attempt

/-- One result of `make_category_listing_request`: the `(response_data,
status_code, error_msg)` triple, reduced to the fields the pagination loop
inspects.  On success (`errorMsg = ""`) the payload carries
`data.hasMore`, `data.offset` (the next cursor) and the product count of the
page. -/
structure RawResult where
  errorMsg : String
  statusCode : Nat
  hasMore : Bool
  nextOffset : Nat
  products : Nat
deriving DecidableEq, Repr

/-- Observable actions of a pagination run: an HTTP fetch issued for a
`(page_no, offset)` pair, a page file saved, or an error record saved. -/
inductive Event where
  | fetch (pageNo offset : Nat)
  | savePage (f : PageFile)
  | saveError (pageNo offset : Nat)
deriving DecidableEq, Repr

/-- `max_retries` of `scrape_category_with_pagination` in
scraper-v2/swiggy/utils/common.py. -/
def max_retries : Nat := 5

/-- The page/retry loop of `scrape_category_with_pagination`
(scraper-v2/swiggy/utils/common.py, the `while True` body), consuming one
scripted fetch result per request.  State: current `page_no`, current
`offset`, `consecutive_rate_limits`, `retry_attempt` (reset to 0 on entry to
each page), and the running `(pages_scraped, total_products_scraped)`
counters.  Returns the emitted event trace and `some counts` on a return of
the Python function, or `none` when the script is exhausted mid-run. -/
def runLoop : List RawResult → Nat → Nat → Nat → Nat → Nat → Nat →
    List Event × Option (Nat × Nat)
  | [], _, _, _, _, _, _ => ([], none)
  | r :: rest, page_no, offset, consecutive, retry, pages, products =>
    let ev := Event.fetch page_no offset
    if r.errorMsg ≠ "" ∧ is_rate_limited r.statusCode r.errorMsg then
      if retry + 1 < max_retries then
        let (evs, res) :=
          runLoop rest page_no offset (consecutive + 1) (retry + 1) pages products
        (ev :: evs, res)
      else
        ([ev, Event.saveError page_no offset], some (pages, products))
    else if r.errorMsg ≠ "" then
      ([ev, Event.saveError page_no offset], some (pages, products))
    else
      let saved : PageFile :=
        { pageNo := page_no, hasMore := r.hasMore, offset := offset,
          nextOffset := r.nextOffset, products := r.products }
      if r.hasMore then
        let (evs, res) :=
          runLoop rest (page_no + 1) r.nextOffset 0 0 (pages + 1)
            (products + r.products)
        (ev :: Event.savePage saved :: evs, res)
      else
        ([ev, Event.savePage saved], some (pages + 1, products + r.products))

/-- Model of `scrape_category_with_pagination`
(scraper-v2/swiggy/utils/common.py): resume computation, the
already-complete early return, preloading of counts when resuming past page
0, and then the fetch loop.  On resume the request cursor starts at 0
(`offset = 0  # Will be updated from API response`). -/
def scrape_category_with_pagination (store : Store) (script : List RawResult)
    (resume : Bool) : List Event × Option (Nat × Nat) :=
  if resume then
    match get_next_page_to_scrape store with
    | none => ([], some (countExisting store))
    | some start =>
      let existing := get_existing_pages store
      let init := if ¬existing.isEmpty ∧ 0 < start then countExisting store else (0, 0)
      runLoop script start 0 0 0 init.1 init.2
  else
    runLoop script 0 0 0 0 0 0

/-- Model of `is_category_fully_scraped`
(scraper-v2/swiggy/step3_scrape_discovered_categories_playwright.py, also
duplicated in utils/common.py): a category is fully scraped when its
highest-numbered page file exists and has `has_more = False`; any failure to
determine this yields `false`. -/
def is_category_fully_scraped (store : Store) : Bool :=
  let existing := get_existing_pages store
  if existing.isEmpty then false
  else
    match findPage store (existing.foldl max 0) with
    | some f => !f.hasMore
    | none => false

/-- One widget of a category-listing payload, reduced to what
`count_products_in_playwright_response` inspects: a `PRODUCT_LIST` widget
with an optional `data` array (counted by length, `None` counted as 0), a
legacy `GridWidget` with its `info` list length, or anything else. -/
inductive Widget where
  | productList (items : Option Nat)
  | gridWidget (count : Nat)
  | other
deriving DecidableEq, Repr

/-- The `instamart.categoryData` object of a Playwright-rendered page, with
the fields the engine reads: the lengths of the `categories` and `filters`
side-bar lists, the `widgets`, and the pagination fields `hasMore` and
`offset` (the next cursor). -/
structure CategoryData where
  categoriesCount : Nat
  filtersCount : Nat
  widgets : List Widget
  hasMore : Bool
  offset : Nat
deriving DecidableEq, Repr

/-- Model of `count_products_in_playwright_response` on a live payload:
sum of the product-list and grid-widget item counts. -/
def count_products_in_playwright_response (cd : CategoryData) : Nat :=
  cd.widgets.foldl
    (fun acc w =>
      match w with
      | .productList (some n) => acc + n
      | .productList none => acc
      | .gridWidget n => acc + n
      | .other => acc)
    0

/-- Model of `is_valid_category_data` (scraper-v3/swiggy/utils/scraper.py),
which is also the in-line validity test of `fetch_page_with_playwright` in
scraper-v2: a missing or empty `categoryData` is invalid, and otherwise the
payload must carry a non-empty `categories`, `filters` or `widgets` entry;
an invalid payload is the rate-limit signature. -/
def is_valid_category_data : Option CategoryData → Bool
  | none => false
  | some cd => cd.categoriesCount != 0 || cd.filtersCount != 0 || !cd.widgets.isEmpty

/-- One navigation attempt inside `fetch_page_with_playwright`: either an
`___INITIAL_STATE___` extraction yielding the (possibly empty)
`instamart.categoryData`, or any of the failure modes (no script tag, JSON
decode error, timeout, other exception), which all fall through to the
backoff. -/
inductive PwAttempt where
  | state (cd : Option CategoryData)
  | noState
deriving DecidableEq, Repr

/-- `max_retries` of `fetch_page_with_playwright`. -/
def pw_max_retries : Nat := 10

/-- Attempt loop of `fetch_page_with_playwright`: try up to the given fuel
many attempts, returning the attempts used and the first payload passing the
validity test; `none` models the final `raise` (or an exhausted script). -/
def fetchPWGo : Nat → List PwAttempt → Nat → Nat × Option CategoryData
  | 0, _, used => (used, none)
  | _ + 1, [], used => (used, none)
  | fuel + 1, a :: rest, used =>
    match a with
    | .state cd => if is_valid_category_data cd then (used + 1, cd)
                   else fetchPWGo fuel rest (used + 1)
    | .noState => fetchPWGo fuel rest (used + 1)

/-- Model of `fetch_page_with_playwright`
(scraper-v2/swiggy/step3_scrape_discovered_categories_playwright.py): run
the attempt loop with the `max_retries = 10` budget. -/
def fetch_page_with_playwright (attempts : List PwAttempt) : Nat × Option CategoryData :=
  fetchPWGo pw_max_retries attempts 0

/-- One page-level fetch of the Playwright pagination loop: eventual success
with a payload, or the exception raised after `fetch_page_with_playwright`
exhausts its retries. -/
inductive PwFetch where
  | ok (cd : CategoryData)
  | exn
deriving DecidableEq, Repr

/-- The `while True` loop of
`scrape_discovered_category_with_pagination_playwright`: fetch, end
pagination without saving when the page has zero products, otherwise save
the page file and continue while `hasMore`; an exception saves an error
record and breaks.  Returns the event trace and `some counts`, or `none`
when the script is exhausted mid-run. -/
def pwLoop : List PwFetch → Nat → Nat → Nat → Nat → List Event × Option (Nat × Nat)
  | [], _, _, _, _ => ([], none)
  | .exn :: _, page_num, offset, pages, products =>
    ([Event.fetch page_num offset, Event.saveError page_num offset],
      some (pages, products))
  | .ok cd :: rest, page_num, offset, pages, products =>
    let prods := count_products_in_playwright_response cd
    if prods == 0 then
      ([Event.fetch page_num offset], some (pages, products))
    else
      let saved : PageFile :=
        { pageNo := page_num, hasMore := cd.hasMore, offset := offset,
          nextOffset := cd.offset, products := prods }
      if cd.hasMore then
        let (evs, res) :=
          pwLoop rest (page_num + 1) cd.offset (pages + 1) (products + prods)
        (Event.fetch page_num offset :: Event.savePage saved :: evs, res)
      else
        ([Event.fetch page_num offset, Event.savePage saved],
          some (pages + 1, products + prods))

/-- Product count over the existing pages
(`count_products_in_existing_pages`): pages whose file cannot be read are
skipped. -/
def count_products_in_existing_pages (store : Store) (existing : List Nat) : Nat :=
  existing.foldl
    (fun acc p =>
      match findPage store p with
      | some f => acc + f.products
      | none => acc)
    0

/-- Model of `scrape_discovered_category_with_pagination_playwright`
(scraper-v2/swiggy/step3_scrape_discovered_categories_playwright.py):
resume computation, early return for a complete category, preloading of the
existing counts, and — unlike the direct-request engine — recovery of the
request cursor from the `next_offset` stored in the metadata of the
highest-numbered existing page when resuming past page 0. -/
def scrape_discovered_category_with_pagination_playwright (store : Store)
    (script : List PwFetch) (resume : Bool) : List Event × Option (Nat × Nat) :=
  if resume then
    match get_next_page_to_scrape store with
    | none =>
      let existing := get_existing_pages store
      ([], some (existing.length, count_products_in_existing_pages store existing))
    | some start =>
      let existing := get_existing_pages store
      let pages0 := existing.length
      let products0 := count_products_in_existing_pages store existing
      let offset0 :=
        if ¬existing.isEmpty ∧ 0 < start then
          match findPage store (existing.foldl max 0) with
          | some f => f.nextOffset
          | none => 0
        else 0
      pwLoop script start offset0 pages0 products0
  else
    pwLoop script 0 0 0 0

/-- Status computation of `process_single_discovered_category`:
`"success" if pages > 0 else "failed"`. -/
def process_single_status (pages : Nat) : String :=
  if 0 < pages then "success" else "failed"

/-- A discovered item as fed to `get_unique_discovered_categories`: its
`type`, `id`, `displayName` and `productCount` fields. -/
structure Item where
  type : String
  id : String
  displayName : String
  productCount : Nat
deriving DecidableEq, Repr

/-- A scheduled crawl target produced by `get_unique_discovered_categories`
(the category object handed to the scraper). -/
structure UniqueCat where
  id : String
  category_name : String
  productCount : Nat
deriving DecidableEq, Repr

/-- The category object built from a surviving discovered item. -/
def mkUniqueCat (it : Item) : UniqueCat :=
  { id := it.id, category_name := it.displayName, productCount := it.productCount }

/-- Loop of `get_unique_discovered_categories`
(scraper-v2/swiggy/step3_scrape_discovered_categories_playwright.py): skip
items that are not related categories, items whose id was already seen, and
items whose category is already fully scraped in the store; otherwise mark
the id seen and schedule the item.  `folder` maps a category name to its
page files in the categories-all folder. -/
def get_unique_discovered_categories (folder : String → Store) :
    List Item → List String → List UniqueCat
  | [], _ => []
  | it :: rest, seen =>
    if it.type ≠ "related_category" then
      get_unique_discovered_categories folder rest seen
    else if seen.contains it.id then
      get_unique_discovered_categories folder rest seen
    else if is_category_fully_scraped (folder it.displayName) then
      get_unique_discovered_categories folder rest seen
    else
      mkUniqueCat it :: get_unique_discovered_categories folder rest (it.id :: seen)

end V2

namespace V3

/-- Outcome of one `scrape_category_attempt`
(scraper-v3/swiggy/step2_scrape_categories.py), carrying the page files the
attempt wrote into the category directory before it returned: a full
success, the `"Failed - API_ERROR - Session corrupted"` return (session
corruption detected mid-attempt), a non-retryable failure, or an exception
escaping the attempt.  Files are abstract identifiers. -/
inductive AttemptOutcome where
  | success (files : List Nat)
  | apiError (files : List Nat)
  | otherFailure (files : List Nat)
  | exn (files : List Nat)
deriving DecidableEq, Repr

/-- Observable destructive action of the category-retry driver: the
`cleanup_partial_data` call, which `shutil.rmtree`s the whole category
directory; the event records every file removed by it. -/
inductive V3Event where
  | cleanup (removed : List Nat)
deriving DecidableEq, Repr

/-- Model of `scrape_category_with_pagination`
(scraper-v3/swiggy/step2_scrape_categories.py) around its scripted attempts:
the `while category_retry_count < max_category_retries` loop, which on every
retry iteration (count > 0) first calls `cleanup_partial_data` — deleting
every file of the category directory — before running the next attempt.
`success` and `otherFailure` return immediately, `apiError` and `exn`
increment the retry counter and loop.  Returns the event trace, the final
contents of the category directory, and the result string (`"cutoff"` when
the script is exhausted mid-run). -/
def runCategoryRetries (maxCategoryRetries : Nat) :
    List AttemptOutcome → Nat → List Nat → List V3Event × List Nat × String
  | script, count, store =>
    if maxCategoryRetries ≤ count then
      ([], store, "Failed - Max category retries exceeded")
    else
      let cleaned := if 0 < count then ([V3Event.cleanup store], ([] : List Nat))
                     else ([], store)
      match script with
      | [] => (cleaned.1, cleaned.2, "cutoff")
      | a :: rest =>
        match a with
        | .success fs => (cleaned.1, cleaned.2 ++ fs, "Success")
        | .otherFailure fs => (cleaned.1, cleaned.2 ++ fs, "Failed - other")
        | .apiError fs =>
          let (evs, st, res) :=
            runCategoryRetries maxCategoryRetries rest (count + 1) (cleaned.2 ++ fs)
          (cleaned.1 ++ evs, st, res)
        | .exn fs =>
          let (evs, st, res) :=
            runCategoryRetries maxCategoryRetries rest (count + 1) (cleaned.2 ++ fs)
          (cleaned.1 ++ evs, st, res)

/-- One `(category_name, filter_name)` source entry of a stored product's
`swiggy_data.sources` list (scraper-v3/swiggy/step4_extract_products.py). -/
structure SourceInfo where
  category_id : Option String
  category_name : String
  filter_id : Option String
  filter_name : Option String
deriving DecidableEq, Repr

/-- The `swiggy_data` block of a stored product record. -/
structure SwiggyData where
  category_id : Option String
  category_name : String
  filter_id : Option String
  filter_name : Option String
  sources : Option (List SourceInfo)
deriving DecidableEq, Repr

/-- A stored product record (`products/<id>/data.json`), with
representative nullable attributes alongside the source-tracking fields;
`None` in the JSON is `none` here. -/
structure ProductData where
  product_id : Option String
  display_name : Option String
  brand : Option String
  quantity : Option String
  categories : List String
  filters : List String
  swiggy_data : SwiggyData
deriving DecidableEq, Repr

/-- Model of `merge_product_data`
(scraper-v3/swiggy/step4_extract_products.py): append the new observation's
category name and filter name to the stored lists when absent, and append a
`(category_id, category_name, filter_id, filter_name)` source entry to
`swiggy_data.sources` unless one with the same `(category_name,
filter_name)` pair already exists.  All other fields of the stored record
are returned as they are. -/
def merge_product_data (existing_data new_data : ProductData) : ProductData :=
  let cats :=
    if existing_data.categories.contains new_data.swiggy_data.category_name then
      existing_data.categories
    else existing_data.categories ++ [new_data.swiggy_data.category_name]
  let filts :=
    match new_data.swiggy_data.filter_name with
    | some fn =>
      if existing_data.filters.contains fn then existing_data.filters
      else existing_data.filters ++ [fn]
    | none => existing_data.filters
  let sources0 := existing_data.swiggy_data.sources.getD []
  let source_info : SourceInfo :=
    { category_id := new_data.swiggy_data.category_id,
      category_name := new_data.swiggy_data.category_name,
      filter_id := new_data.swiggy_data.filter_id,
      filter_name := new_data.swiggy_data.filter_name }
  let source_exists := sources0.any
    (fun s => s.category_name == source_info.category_name &&
              s.filter_name == source_info.filter_name)
  let sources1 := if source_exists then sources0 else sources0 ++ [source_info]
  { existing_data with
      categories := cats,
      filters := filts,
      swiggy_data := { existing_data.swiggy_data with sources := some sources1 } }

end V3

/-- One result entry of a per-category task, as collected by the batch
driver. -/
structure ResultRec where
  category_name : String
  status : String
  pages : Nat
  products : Nat
deriving DecidableEq, Repr

/-- Outcome of running one category's scrape task to completion: a normal
return with its counts, or an exception escaping the task (captured by
`asyncio.gather(..., return_exceptions=True)`). -/
inductive TargetOutcome where
  | ok (name : String) (pages products : Nat)
  | exnRaised
deriving DecidableEq, Repr

/-- Conversion of one captured task outcome into its result entry, as the
result-processing loop of `process_discovered_categories_in_parallel`
performs it: an exception becomes a contained `"exception"` entry, a normal
return the per-category result (status from `process_single_status`). -/
def resultEntry : TargetOutcome → ResultRec
  | .ok name pages products =>
    { category_name := name, status := V2.process_single_status pages,
      pages := pages, products := products }
  | .exnRaised =>
    { category_name := "unknown", status := "exception", pages := 0, products := 0 }

/-- Partition of the target list into chunks of the given width
(`discovered_categories[i : i + chunk_size]`). -/
def chunkList (n : Nat) : List α → List (List α)
  | [] => []
  | x :: xs => (x :: xs.take (n - 1)) :: chunkList n (xs.drop (n - 1))
termination_by l => l.length
decreasing_by simp [List.length_drop]; omega

/-- Model of `process_discovered_categories_in_parallel`
(scraper-v2/swiggy/step3_scrape_discovered_categories_playwright.py): the
targets are processed in chunks; within each chunk every target's task runs
to its own outcome (`gather` with `return_exceptions=True`, so an exception
is captured as a value, never propagated), and all outcomes are appended to
the global result list in order. -/
def process_discovered_categories_in_parallel (chunkSize : Nat)
    (targets : List String) (outcome : String → TargetOutcome) : List ResultRec :=
  (chunkList chunkSize targets).foldl
    (fun acc chunk => acc ++ chunk.map (fun c => resultEntry (outcome c))) []

/-- Demonstration store for C4: one persisted page, `has_more = False`. -/
def demoCompleteStore : V2.Store :=
  [{ pageNo := 0, hasMore := false, offset := 0, nextOffset := 30, products := 4 }]

/-- Demonstration store for C5: persisted pages 0, 1 and 3, all with
`has_more = True`. -/
def demoGapStore : V2.Store :=
  [{ pageNo := 0, hasMore := true, offset := 0, nextOffset := 10, products := 1 },
   { pageNo := 1, hasMore := true, offset := 10, nextOffset := 20, products := 2 },
   { pageNo := 3, hasMore := true, offset := 30, nextOffset := 40, products := 3 }]

/-- Eligibility of a discovered item for scheduling: a related category
whose name is not already fully scraped in the categories-all store. -/
def eligibleItem (folder : String → V2.Store) (it : V2.Item) : Bool :=
  (it.type == "related_category") &&
    !V2.is_category_fully_scraped (folder it.displayName)

/-- The deduplication keys of a stored product's source list: the
`(category_name, filter_name)` pairs `merge_product_data` compares. -/
def sourceKeys (l : List V3.SourceInfo) : List (String × Option String) :=
  l.map (fun s => (s.category_name, s.filter_name))

/-- Store for the C1 scenario: page 0 persisted with `has_more = True` and
stored `next_offset = 50`. -/
def c1Store : V2.Store :=
  [{ pageNo := 0, hasMore := true, offset := 0, nextOffset := 50, products := 7 }]

/-- Script for the C1 scenario against the direct-request engine: one
successful final page. -/
def c1Script : List V2.RawResult :=
  [{ errorMsg := "", statusCode := 200, hasMore := false, nextOffset := 60,
     products := 3 }]

/-- Script for the C1 scenario against the Playwright engine: one successful
final page carrying three products. -/
def c1PwScript : List V2.PwFetch :=
  [V2.PwFetch.ok
    { categoriesCount := 1, filtersCount := 0,
      widgets := [V2.Widget.productList (some 3)], hasMore := false,
      offset := 60 }]

/-- Payload for the C9 scenario: a valid `categoryData` (non-empty sidebar
category list) whose widgets contain no products. -/
def c9Payload : V2.CategoryData :=
  { categoriesCount := 1, filtersCount := 0, widgets := [], hasMore := false,
    offset := 0 }

/-- Stored product record for the C7 scenario: the first observation carried
no brand. -/
def c7ExistingRec : V3.ProductData :=
  { product_id := some "p1", display_name := some "Choco Bar", brand := none,
    quantity := some "1 kg", categories := ["Sweets"], filters := [],
    swiggy_data :=
      { category_id := some "c1", category_name := "Sweets", filter_id := none,
        filter_name := none, sources := none } }

/-- New observation for the C7 scenario: the same product seen again under
another category, this time with a brand. -/
def c7NewRec : V3.ProductData :=
  { product_id := some "p1", display_name := some "Choco Bar",
    brand := some "Amul", quantity := some "1 kg",
    categories := ["Chocolates"], filters := [],
    swiggy_data :=
      { category_id := some "c2", category_name := "Chocolates",
        filter_id := none, filter_name := none, sources := none } }

/-- A scripted rate-limited fetch result: Swiggy's 202 soft block. -/
def rateLimitedResult : V2.RawResult :=
  { errorMsg := "Non-200 status code: 202", statusCode := 202, hasMore := false,
    nextOffset := 0, products := 0 }

/-- C10: the rate-limit classifier is a pure total predicate returning true
exactly on status 202, 429 or 503, or when the error message contains one of
the four textual signatures (the last two case-insensitively); in
particular status 202 is always classified as a rate limit.  Totality and
absence of exceptions hold by construction: `is_rate_limited` is a total
Lean function. -/
theorem is_rate_limited_characterization (s : Nat) (m : String) :
    (V2.is_rate_limited s m = true ↔
      s = 202 ∨ s = 429 ∨ s = 503 ∨
      "Non-200 status code: 202".toList <:+: m.toList ∨
      "JSON decode error".toList <:+: m.toList ∨
      "rate limit".toList <:+: m.toLower.toList ∨
      "too many requests".toList <:+: m.toLower.toList) ∧
    V2.is_rate_limited 202 m = true := by
  constructor
  · simp only [V2.is_rate_limited, containsSubstr, Bool.or_eq_true, beq_iff_eq,
      decide_eq_true_eq]
    tauto
  · simp [V2.is_rate_limited]

/-- C3, counterexample: the claim asserts the delay after `n` consecutive
rate-limited outcomes is `min(baseDelay * 2 ^ n, maxDelay)` and never
exceeds `maxDelay`, but the backoff of `fetch_page_with_playwright` (base
5.0, cited by the claim) applies no cap: its attempt-5 delay is 160 seconds,
above the repository's only configured `max_delay` of 120 and different
from the capped value. -/
theorem playwright_backoff_uncapped_counterexample :
    V2.playwrightBackoffDelay 5 = 160 ∧
    ¬ V2.playwrightBackoffDelay 5 ≤ 120 ∧
    V2.playwrightBackoffDelay 5 ≠ V2.exponential_backoff 5 5 120 := by
  refine ⟨?_, ?_, ?_⟩ <;> norm_num [V2.playwrightBackoffDelay, V2.exponential_backoff]

/-- C3, amended: the helper `exponential_backoff` computes exactly
`min(base_delay * 2 ^ n, max_delay)`, is non-decreasing in `n` (for a
non-negative base) and never exceeds `max_delay`; the in-line backoff of
`fetch_page_with_playwright` computes `5 * 2 ^ n`, which is likewise
non-decreasing but has no cap — already five attempts in it exceeds the
120-second cap used by `exponential_backoff`. -/
theorem backoff_monotone_and_capped (n : Nat) (b M : ℚ) (hb : 0 ≤ b) :
    (V2.exponential_backoff n b M = min (b * 2 ^ n) M ∧
     V2.exponential_backoff n b M ≤ V2.exponential_backoff (n + 1) b M ∧
     V2.exponential_backoff n b M ≤ M) ∧
    (V2.playwrightBackoffDelay n ≤ V2.playwrightBackoffDelay (n + 1) ∧
     120 < V2.playwrightBackoffDelay (n + 5)) := by
  have hpow : ∀ k : Nat, (2 : ℚ) ^ k ≤ 2 ^ (k + 1) := fun k =>
    pow_le_pow_right₀ (by norm_num) (Nat.le_succ k)
  refine ⟨⟨rfl, ?_, min_le_right _ _⟩, ?_, ?_⟩
  · exact min_le_min (mul_le_mul_of_nonneg_left (hpow n) hb) le_rfl
  · exact mul_le_mul_of_nonneg_left (hpow n) (by norm_num)
  · have h32 : (32 : ℚ) ≤ 2 ^ (n + 5) := by
      calc (32 : ℚ) = 2 ^ 5 := by norm_num
      _ ≤ 2 ^ (n + 5) := pow_le_pow_right₀ (by norm_num) (by omega)
    have := mul_le_mul_of_nonneg_left h32 (by norm_num : (0 : ℚ) ≤ 5)
    unfold V2.playwrightBackoffDelay
    linarith

/-- C3, witness for `backoff_monotone_and_capped` at `n = 2`, base 15,
cap 120 (the defaults of `exponential_backoff`). -/
theorem backoff_monotone_and_capped_witness :
    (0 : ℚ) ≤ 15 ∧
    ((V2.exponential_backoff 2 15 120 = min (15 * 2 ^ 2) 120 ∧
      V2.exponential_backoff 2 15 120 ≤ V2.exponential_backoff 3 15 120 ∧
      V2.exponential_backoff 2 15 120 ≤ 120) ∧
     (V2.playwrightBackoffDelay 2 ≤ V2.playwrightBackoffDelay 3 ∧
      120 < V2.playwrightBackoffDelay 7)) :=
  ⟨by norm_num, backoff_monotone_and_capped 2 15 120 (by norm_num)⟩

/-- The sorted existing-page list is a permutation of the stored page
numbers. -/
theorem get_existing_pages_perm (store : V2.Store) :
    List.Perm (V2.get_existing_pages store) (store.map (·.pageNo)) :=
  List.perm_insertionSort _ _

/-- The gap scan started at `i` on a strictly sorted list whose elements are
all at least `i` yields the least number from `i` upward that is not in the
list: the result is not a member, while everything between `i` and it is. -/
theorem firstGapAux_spec : ∀ (l : List Nat) (i : Nat), l.Sorted (· < ·) →
    (∀ x ∈ l, i ≤ x) →
    i ≤ V2.firstGapAux l i ∧ V2.firstGapAux l i ∉ l ∧
    ∀ j, i ≤ j → j < V2.firstGapAux l i → j ∈ l := by
  intro l
  induction l with
  | nil =>
    intro i _ _
    refine ⟨le_rfl, by simp [V2.firstGapAux], ?_⟩
    intro j hij hj
    rw [V2.firstGapAux] at hj
    omega
  | cons p rest ih =>
    intro i hsort hge
    rw [List.sorted_cons] at hsort
    by_cases hp : p = i
    · subst hp
      have hrest : ∀ x ∈ rest, p + 1 ≤ x := fun x hx => hsort.1 x hx
      obtain ⟨h1, h2, h3⟩ := ih (p + 1) hsort.2 hrest
      have hgap : V2.firstGapAux (p :: rest) p = V2.firstGapAux rest (p + 1) := by
        simp [V2.firstGapAux]
      refine ⟨?_, ?_, ?_⟩
      · rw [hgap]; omega
      · rw [hgap]
        intro hmem
        rcases List.mem_cons.mp hmem with h | h
        · omega
        · exact h2 h
      · intro j hij hj
        rw [hgap] at hj
        rcases Nat.eq_or_lt_of_le hij with h | h
        · exact List.mem_cons.mpr (Or.inl h.symm)
        · exact List.mem_cons.mpr (Or.inr (h3 j h hj))
    · have hgap : V2.firstGapAux (p :: rest) i = i := by
        simp [V2.firstGapAux, hp]
      refine ⟨by omega, ?_, ?_⟩
      · rw [hgap]
        intro hmem
        rcases List.mem_cons.mp hmem with h | h
        · exact hp h.symm
        · have hpi : i < p := lt_of_le_of_ne (hge p (by simp)) (fun h => hp h.symm)
          have := hsort.1 i h
          omega
      · intro j hij hj
        rw [hgap] at hj
        omega

/-- The existing-page list is sorted strictly when the stored page numbers
are distinct. -/
theorem get_existing_pages_sorted_lt (store : V2.Store)
    (hnd : (store.map (·.pageNo)).Nodup) :
    (V2.get_existing_pages store).Sorted (· < ·) := by
  have hs : (V2.get_existing_pages store).Sorted (· ≤ ·) :=
    List.sorted_insertionSort _ _
  have hn : (V2.get_existing_pages store).Nodup :=
    (get_existing_pages_perm store).symm.nodup hnd
  exact hs.lt_of_le hn

/-- With distinct page numbers, looking up the pages of the store in any
order recovers exactly the stored files. -/
theorem map_filterMap_findPage : ∀ (store : V2.Store),
    (store.map (·.pageNo)).Nodup →
    (store.map (·.pageNo)).filterMap (V2.findPage store) = store := by
  intro store
  induction store with
  | nil => intro _; simp
  | cons f rest ih =>
    intro hnd
    rw [List.map_cons, List.nodup_cons] at hnd
    have hhead : V2.findPage (f :: rest) f.pageNo = some f := by
      simp [V2.findPage, List.find?_cons]
    have htail : ∀ p ∈ rest.map (·.pageNo),
        V2.findPage (f :: rest) p = V2.findPage rest p := by
      intro p hp
      have hne : (f.pageNo == p) = false := by
        have : f.pageNo ≠ p := fun h => hnd.1 (h ▸ hp)
        simp [this]
      simp [V2.findPage, List.find?_cons, hne]
    rw [List.map_cons, List.filterMap_cons, hhead]
    rw [List.filterMap_congr htail, ih hnd.2]

/-- Unfolding of the page/product accumulation over a list of page numbers:
it adds one page and the stored product count for every page number whose
file is found. -/
theorem count_foldl_spec (store : V2.Store) : ∀ (l : List Nat) (a b : Nat),
    l.foldl
      (fun acc p =>
        match V2.findPage store p with
        | some f => (acc.1 + 1, acc.2 + f.products)
        | none => acc)
      (a, b)
    = (a + (l.filterMap (V2.findPage store)).length,
       b + ((l.filterMap (V2.findPage store)).map (·.products)).sum) := by
  intro l
  induction l with
  | nil => intro a b; simp
  | cons p rest ih =>
    intro a b
    rw [List.foldl_cons, List.filterMap_cons]
    cases h : V2.findPage store p with
    | none => simp only [h, ih]
    | some f =>
      simp only [h, ih, List.length_cons, List.map_cons, List.sum_cons,
        Prod.mk.injEq]
      constructor <;> ring

/-- With distinct page numbers, the resume paths' count over the existing
pages recovers the number of stored pages and the sum of their stored
product counts. -/
theorem countExisting_spec (store : V2.Store)
    (hnd : (store.map (·.pageNo)).Nodup) :
    V2.countExisting store = (store.length, (store.map (·.products)).sum) := by
  have hperm : List.Perm ((V2.get_existing_pages store).filterMap (V2.findPage store)) store := by
    have h := (get_existing_pages_perm store).filterMap (V2.findPage store)
    rwa [map_filterMap_findPage store hnd] at h
  rw [V2.countExisting, count_foldl_spec]
  rw [hperm.length_eq, (hperm.map (·.products)).sum_eq]
  simp

/-- The Playwright variant's product count over the existing pages equals
the sum of the stored product counts when page numbers are distinct. -/
theorem count_products_in_existing_pages_spec (store : V2.Store)
    (hnd : (store.map (·.pageNo)).Nodup) :
    V2.count_products_in_existing_pages store (V2.get_existing_pages store) =
      (store.map (·.products)).sum := by
  have hperm : List.Perm ((V2.get_existing_pages store).filterMap (V2.findPage store)) store := by
    have h := (get_existing_pages_perm store).filterMap (V2.findPage store)
    rwa [map_filterMap_findPage store hnd] at h
  have hfold : ∀ (l : List Nat) (a : Nat),
      l.foldl
        (fun acc p =>
          match V2.findPage store p with
          | some f => acc + f.products
          | none => acc) a
      = a + ((l.filterMap (V2.findPage store)).map (·.products)).sum := by
    intro l
    induction l with
    | nil => intro a; simp
    | cons p rest ih =>
      intro a
      rw [List.foldl_cons, List.filterMap_cons]
      cases h : V2.findPage store p with
      | none => simp only [h, ih]
      | some f =>
        simp only [h, ih, List.map_cons, List.sum_cons]
        rw [Nat.add_assoc]
  rw [V2.count_products_in_existing_pages, hfold, (hperm.map (·.products)).sum_eq]
  simp

/-- The existing-page list has the same length as the store. -/
theorem get_existing_pages_length (store : V2.Store) :
    (V2.get_existing_pages store).length = store.length := by
  rw [(get_existing_pages_perm store).length_eq, List.length_map]

/-- A non-empty store has a non-empty existing-page list. -/
theorem get_existing_pages_isEmpty (store : V2.Store) (hne : store ≠ []) :
    (V2.get_existing_pages store).isEmpty = false := by
  have hlen : (V2.get_existing_pages store).length = store.length :=
    get_existing_pages_length store
  have : store.length ≠ 0 := fun h => hne (List.length_eq_zero.mp h)
  cases hE : (V2.get_existing_pages store).isEmpty
  · rfl
  · rw [List.isEmpty_iff] at hE
    rw [hE] at hlen
    simp at hlen
    omega

/-- C4: re-running the direct-request engine and the Playwright engine
against a target whose highest-numbered persisted page has
`has_more = False` issues no fetch at all (the event trace is empty) and
returns the page count and product total recomputed from the persisted
pages. -/
theorem completion_idempotence (store : V2.Store) (script : List V2.RawResult)
    (pwScript : List V2.PwFetch)
    (hnd : (store.map (·.pageNo)).Nodup)
    (hne : store ≠ [])
    (hcomplete : ((V2.findPage store
        ((V2.get_existing_pages store).foldl max 0)).map (·.hasMore)).getD true
      = false) :
    V2.scrape_category_with_pagination store script true
      = ([], some (store.length, (store.map (·.products)).sum)) ∧
    V2.scrape_discovered_category_with_pagination_playwright store pwScript true
      = ([], some (store.length, (store.map (·.products)).sum)) := by
  have hne' := get_existing_pages_isEmpty store hne
  have hnext : V2.get_next_page_to_scrape store = none := by
    simp [V2.get_next_page_to_scrape, hne', hcomplete]
  constructor
  · simp [V2.scrape_category_with_pagination, hnext, countExisting_spec store hnd]
  · simp [V2.scrape_discovered_category_with_pagination_playwright, hnext,
      count_products_in_existing_pages_spec store hnd, get_existing_pages_length]

/-- C4, witness for `completion_idempotence` on a one-page complete store. -/
theorem completion_idempotence_witness :
    ((demoCompleteStore.map (·.pageNo)).Nodup ∧ demoCompleteStore ≠ [] ∧
      ((V2.findPage demoCompleteStore
        ((V2.get_existing_pages demoCompleteStore).foldl max 0)).map
          (·.hasMore)).getD true = false) ∧
    (V2.scrape_category_with_pagination demoCompleteStore [] true
      = ([], some (demoCompleteStore.length,
          (demoCompleteStore.map (·.products)).sum)) ∧
     V2.scrape_discovered_category_with_pagination_playwright demoCompleteStore [] true
      = ([], some (demoCompleteStore.length,
          (demoCompleteStore.map (·.products)).sum))) :=
  ⟨⟨by decide, by decide, by decide⟩,
    completion_idempotence demoCompleteStore [] [] (by decide) (by decide) (by decide)⟩

/-- C5: for a non-complete target (highest persisted page has
`has_more = True`) with distinct page numbers and a gap below the highest
page, the resume computation returns exactly the least missing page number —
every smaller page is persisted, the returned page is not, and it lies
strictly below the highest persisted page. -/
theorem gap_detection (store : V2.Store)
    (hnd : (store.map (·.pageNo)).Nodup)
    (hne : store ≠ [])
    (hmore : ((V2.findPage store
        ((V2.get_existing_pages store).foldl max 0)).map (·.hasMore)).getD true
      = true)
    (hgap : ∃ m, m < (V2.get_existing_pages store).foldl max 0 ∧
        m ∉ store.map (·.pageNo)) :
    ∃ g, V2.get_next_page_to_scrape store = some g ∧
      g ∉ store.map (·.pageNo) ∧ (∀ j < g, j ∈ store.map (·.pageNo)) ∧
      g < (V2.get_existing_pages store).foldl max 0 := by
  have hsort := get_existing_pages_sorted_lt store hnd
  obtain ⟨-, hnotmem, hbelow⟩ :=
    firstGapAux_spec (V2.get_existing_pages store) 0 hsort
      (fun x _ => Nat.zero_le x)
  have hmem_iff : ∀ x, x ∈ V2.get_existing_pages store ↔ x ∈ store.map (·.pageNo) :=
    fun x => (get_existing_pages_perm store).mem_iff
  have hne' := get_existing_pages_isEmpty store hne
  have hnext : V2.get_next_page_to_scrape store
      = some (V2.firstGapAux (V2.get_existing_pages store) 0) := by
    simp [V2.get_next_page_to_scrape, hne', hmore]
  refine ⟨V2.firstGapAux (V2.get_existing_pages store) 0, hnext, ?_, ?_, ?_⟩
  · exact fun h => hnotmem ((hmem_iff _).mpr h)
  · exact fun j hj => (hmem_iff j).mp (hbelow j (Nat.zero_le j) hj)
  · obtain ⟨m, hm1, hm2⟩ := hgap
    by_contra hge
    push_neg at hge
    exact hm2 ((hmem_iff m).mp (hbelow m (Nat.zero_le m) (by omega)))

/-- C5, witness for `gap_detection` on the persisted page set 0, 1, 3: the
resume computation must return page 2, not page 4. -/
theorem gap_detection_witness :
    ∃ g, V2.get_next_page_to_scrape demoGapStore = some g ∧
      g ∉ demoGapStore.map (·.pageNo) ∧
      (∀ j < g, j ∈ demoGapStore.map (·.pageNo)) ∧
      g < (V2.get_existing_pages demoGapStore).foldl max 0 :=
  gap_detection demoGapStore (by decide) (by decide) (by decide)
    ⟨2, by decide, by decide⟩


/-- C1: the resumed run for a target with page 0 persisted
(`has_more = True`, stored `next_offset = 50`) issues its next fetch for
page 1 in both engines — page 0 is never re-fetched — but the Playwright
engine sends the stored cursor 50 while the direct-request engine of
utils/common.py sends cursor 0 instead of the stored `next_offset`, a slip
of its resume path (in-run fetches always carry the previous page's
`next_offset`, as the saved page of the very same run shows). -/
theorem resume_cursor_code_bug :
    V2.findPage c1Store 0
      = some { pageNo := 0, hasMore := true, offset := 0, nextOffset := 50,
               products := 7 } ∧
    (V2.scrape_category_with_pagination c1Store c1Script true).1
      = [V2.Event.fetch 1 0,
         V2.Event.savePage
           { pageNo := 1, hasMore := false, offset := 0, nextOffset := 60,
             products := 3 }] ∧
    (V2.scrape_discovered_category_with_pagination_playwright c1Store c1PwScript
        true).1
      = [V2.Event.fetch 1 50,
         V2.Event.savePage
           { pageNo := 1, hasMore := false, offset := 50, nextOffset := 60,
             products := 3 }] ∧
    (0 : Nat) ≠ 50 := by
  refine ⟨?_, ?_, ?_, by decide⟩ <;> decide

/-- C2, counterexample: target with page file 42 persisted before the run;
the first attempt hits a session-corruption envelope (`API_ERROR`), the
restart's `cleanup_partial_data` removes the whole category directory —
including file 42, persisted before the corrupted attempt — and the second
attempt succeeds on an empty directory. -/
theorem restart_cleanup_counterexample :
    V3.runCategoryRetries 3
        [V3.AttemptOutcome.apiError [], V3.AttemptOutcome.success []] 0 [42]
      = ([V3.V3Event.cleanup [42]], [], "Success") ∧
    (42 : Nat) ∉ (V3.runCategoryRetries 3
        [V3.AttemptOutcome.apiError [], V3.AttemptOutcome.success []] 0 [42]).2.1 := by
  refine ⟨?_, ?_⟩ <;> decide

/-- C2, amended: when a session-corrupt attempt triggers the whole-target
restart, the restart first deletes the target's entire page directory —
every file persisted before the corrupted attempt together with everything
the corrupted attempt wrote — and only then re-runs the target from
scratch: the first event of such a run is the cleanup removing exactly
`store ++ fs`. -/
theorem restart_discards_all_persisted_pages (M : Nat) (store fs : List Nat)
    (rest : List V3.AttemptOutcome) (hM : 2 ≤ M) :
    (V3.runCategoryRetries M (V3.AttemptOutcome.apiError fs :: rest) 0 store).1.head?
      = some (V3.V3Event.cleanup (store ++ fs)) := by
  rw [V3.runCategoryRetries]
  have h0 : ¬ M ≤ 0 := by omega
  have h1 : ¬ M ≤ 1 := by omega
  simp only [h0, if_false, Nat.lt_irrefl, if_neg (by omega : ¬ (0 : Nat) < 0)]
  rw [V3.runCategoryRetries]
  simp only [h1, if_false]
  cases rest with
  | nil => simp
  | cons a rest' =>
    cases a <;> simp

/-- C2, witness for `restart_discards_all_persisted_pages`: a concrete
restart with one pre-existing page file and one file written by the
corrupted attempt. -/
theorem restart_discards_all_persisted_pages_witness :
    (2 : Nat) ≤ 3 ∧
    (V3.runCategoryRetries 3
        [V3.AttemptOutcome.apiError [7], V3.AttemptOutcome.success [1]] 0 [5]).1.head?
      = some (V3.V3Event.cleanup ([5] ++ [7])) :=
  ⟨by decide,
   restart_discards_all_persisted_pages 3 [5] [7] [V3.AttemptOutcome.success [1]]
     (by decide)⟩

/-- C9, counterexample: a fresh target whose first page payload is valid
(non-empty sidebar, so not the rate-limit signature) but carries zero
products.  Pagination ends after the single fetch with nothing persisted and
no error record, and the per-category result is reported with status
`"failed"` (zero pages scraped), not as a completed target; nothing marks
the category fully scraped, so a re-run would fetch it again. -/
theorem zero_item_first_page_counterexample :
    V2.is_valid_category_data (some c9Payload) = true ∧
    V2.count_products_in_playwright_response c9Payload = 0 ∧
    V2.scrape_discovered_category_with_pagination_playwright []
        [V2.PwFetch.ok c9Payload] true
      = ([V2.Event.fetch 0 0], some (0, 0)) ∧
    V2.process_single_status 0 = "failed" ∧
    V2.process_single_status 0 ≠ "success" ∧
    V2.is_category_fully_scraped [] = false := by
  refine ⟨?_, ?_, ?_, ?_, ?_, ?_⟩ <;> decide

/-- C9, amended: on a fresh target whose first fetched payload passes the
validity test (not a rate-limit signature) but contains zero products, the
fetch succeeds on its first attempt (no retry), pagination ends immediately
with the single fetch event — no page saved, no error record — and the
per-category result carries status `"failed"` (zero pages scraped) rather
than marking the target complete. -/
theorem zero_item_first_page_terminates (cd : V2.CategoryData)
    (rest : List V2.PwFetch)
    (hvalid : V2.is_valid_category_data (some cd) = true)
    (hzero : V2.count_products_in_playwright_response cd = 0) :
    V2.fetch_page_with_playwright [V2.PwAttempt.state (some cd)] = (1, some cd) ∧
    V2.scrape_discovered_category_with_pagination_playwright []
        (V2.PwFetch.ok cd :: rest) true
      = ([V2.Event.fetch 0 0], some (0, 0)) ∧
    V2.process_single_status 0 = "failed" := by
  refine ⟨?_, ?_, by decide⟩
  · simp [V2.fetch_page_with_playwright, V2.pw_max_retries, V2.fetchPWGo, hvalid]
  · simp [V2.scrape_discovered_category_with_pagination_playwright,
      V2.get_next_page_to_scrape, V2.get_existing_pages,
      V2.count_products_in_existing_pages, V2.pwLoop, hzero]

/-- C9, witness for `zero_item_first_page_terminates` at the concrete
zero-product payload. -/
theorem zero_item_first_page_terminates_witness :
    (V2.is_valid_category_data (some c9Payload) = true ∧
     V2.count_products_in_playwright_response c9Payload = 0) ∧
    (V2.fetch_page_with_playwright [V2.PwAttempt.state (some c9Payload)]
        = (1, some c9Payload) ∧
     V2.scrape_discovered_category_with_pagination_playwright []
        [V2.PwFetch.ok c9Payload] true
      = ([V2.Event.fetch 0 0], some (0, 0)) ∧
     V2.process_single_status 0 = "failed") :=
  ⟨⟨by decide, by decide⟩,
   zero_item_first_page_terminates c9Payload [] (by decide) (by decide)⟩

/-- C7, counterexample: the stored record has `brand = null`, the new
observation of the same product carries `brand = "Amul"`, yet the merged
record still has `brand = null` — `merge_product_data` performs no backfill
of null or absent attributes, contrary to the claim. -/
theorem merge_no_backfill_counterexample :
    c7ExistingRec.brand = none ∧
    c7NewRec.brand = some "Amul" ∧
    (V3.merge_product_data c7ExistingRec c7NewRec).brand = none ∧
    (V3.merge_product_data c7ExistingRec c7NewRec).brand ≠ c7NewRec.brand := by
  refine ⟨rfl, rfl, rfl, by decide⟩


/-- C7, amended: on a repeated observation of the same product,
`merge_product_data` unions the source-tracking data without duplicates —
the new category name and (when present) filter name are appended only if
absent, and a `(category_name, filter_name)` source entry is appended only
if that key is not yet present — while every other attribute of the stored
record is returned unchanged: existing non-null attributes are never
overwritten, but null attributes are not backfilled from the new
observation either. -/
theorem merge_unions_without_backfill (ex nw : V3.ProductData)
    (h1 : ex.categories.Nodup) (h2 : ex.filters.Nodup)
    (h3 : (sourceKeys (ex.swiggy_data.sources.getD [])).Nodup) :
    (V3.merge_product_data ex nw).product_id = ex.product_id ∧
    (V3.merge_product_data ex nw).display_name = ex.display_name ∧
    (V3.merge_product_data ex nw).brand = ex.brand ∧
    (V3.merge_product_data ex nw).quantity = ex.quantity ∧
    nw.swiggy_data.category_name ∈ (V3.merge_product_data ex nw).categories ∧
    (∀ x, x ∈ (V3.merge_product_data ex nw).categories ↔
      x ∈ ex.categories ∨ x = nw.swiggy_data.category_name) ∧
    (V3.merge_product_data ex nw).categories.Nodup ∧
    (∀ fn, nw.swiggy_data.filter_name = some fn →
      fn ∈ (V3.merge_product_data ex nw).filters) ∧
    (∀ x, x ∈ (V3.merge_product_data ex nw).filters →
      x ∈ ex.filters ∨ nw.swiggy_data.filter_name = some x) ∧
    (V3.merge_product_data ex nw).filters.Nodup ∧
    (∃ l, (V3.merge_product_data ex nw).swiggy_data.sources = some l ∧
      (nw.swiggy_data.category_name, nw.swiggy_data.filter_name) ∈ sourceKeys l ∧
      (∀ k, k ∈ sourceKeys l ↔
        k ∈ sourceKeys (ex.swiggy_data.sources.getD []) ∨
        k = (nw.swiggy_data.category_name, nw.swiggy_data.filter_name)) ∧
      (sourceKeys l).Nodup) := by
  have hcontains : ∀ (l : List String) (a : String), l.contains a = true ↔ a ∈ l :=
    fun l a => ⟨List.mem_of_elem_eq_true, List.elem_eq_true_of_mem⟩
  have hcats : (V3.merge_product_data ex nw).categories =
      (if ex.categories.contains nw.swiggy_data.category_name then ex.categories
       else ex.categories ++ [nw.swiggy_data.category_name]) := rfl
  have hfilts : (V3.merge_product_data ex nw).filters =
      (match nw.swiggy_data.filter_name with
       | some fn => if ex.filters.contains fn then ex.filters
                    else ex.filters ++ [fn]
       | none => ex.filters) := rfl
  have hcatsChar : (V3.merge_product_data ex nw).categories
      = (if nw.swiggy_data.category_name ∈ ex.categories then ex.categories
         else ex.categories ++ [nw.swiggy_data.category_name]) := by
    rw [hcats]
    by_cases hc : nw.swiggy_data.category_name ∈ ex.categories
    · rw [if_pos ((hcontains _ _).mpr hc), if_pos hc]
    · rw [if_neg (fun hb => hc ((hcontains _ _).mp hb)), if_neg hc]
  refine ⟨rfl, rfl, rfl, rfl, ?_, ?_, ?_, ?_, ?_, ?_, ?_⟩
  · rw [hcatsChar]
    by_cases hc : nw.swiggy_data.category_name ∈ ex.categories
    · rw [if_pos hc]; exact hc
    · rw [if_neg hc]; simp
  · intro x
    rw [hcatsChar]
    by_cases hc : nw.swiggy_data.category_name ∈ ex.categories
    · rw [if_pos hc]
      exact ⟨Or.inl, fun h => h.elim id (fun hx => hx ▸ hc)⟩
    · rw [if_neg hc]; simp
  · rw [hcatsChar]
    by_cases hc : nw.swiggy_data.category_name ∈ ex.categories
    · rw [if_pos hc]; exact h1
    · rw [if_neg hc]
      rw [List.nodup_append]
      exact ⟨h1, List.nodup_singleton _,
        fun a ha hb => hc (by simp at hb; exact hb ▸ ha)⟩
  · intro fn hfn
    have hred : (V3.merge_product_data ex nw).filters =
        (if ex.filters.contains fn = true then ex.filters
         else ex.filters ++ [fn]) := by
      rw [hfilts, hfn]
    rw [hred]
    by_cases hc : fn ∈ ex.filters
    · rw [if_pos ((hcontains _ _).mpr hc)]; exact hc
    · rw [if_neg (fun hb => hc ((hcontains _ _).mp hb))]; simp
  · intro x
    cases hfn : nw.swiggy_data.filter_name with
    | none =>
      have hred : (V3.merge_product_data ex nw).filters = ex.filters := by
        rw [hfilts, hfn]
      rw [hred]
      exact Or.inl
    | some fn =>
      have hred : (V3.merge_product_data ex nw).filters =
          (if ex.filters.contains fn = true then ex.filters
           else ex.filters ++ [fn]) := by
        rw [hfilts, hfn]
      rw [hred]
      by_cases hc : fn ∈ ex.filters
      · rw [if_pos ((hcontains _ _).mpr hc)]
        exact Or.inl
      · rw [if_neg (fun hb => hc ((hcontains _ _).mp hb))]
        intro h
        rcases List.mem_append.mp h with h | h
        · exact Or.inl h
        · simp only [List.mem_singleton] at h
          exact Or.inr (by rw [h])
  · cases hfn : nw.swiggy_data.filter_name with
    | none =>
      have hred : (V3.merge_product_data ex nw).filters = ex.filters := by
        rw [hfilts, hfn]
      rw [hred]
      exact h2
    | some fn =>
      have hred : (V3.merge_product_data ex nw).filters =
          (if ex.filters.contains fn = true then ex.filters
           else ex.filters ++ [fn]) := by
        rw [hfilts, hfn]
      rw [hred]
      by_cases hc : fn ∈ ex.filters
      · rw [if_pos ((hcontains _ _).mpr hc)]; exact h2
      · rw [if_neg (fun hb => hc ((hcontains _ _).mp hb))]
        rw [List.nodup_append]
        exact ⟨h2, List.nodup_singleton _,
          fun a ha hb => hc (by simp at hb; exact hb ▸ ha)⟩
  · have hsrc : (V3.merge_product_data ex nw).swiggy_data.sources =
        some (if (ex.swiggy_data.sources.getD []).any
            (fun s => s.category_name == nw.swiggy_data.category_name &&
                      s.filter_name == nw.swiggy_data.filter_name)
          then ex.swiggy_data.sources.getD []
          else ex.swiggy_data.sources.getD [] ++
            [{ category_id := nw.swiggy_data.category_id,
               category_name := nw.swiggy_data.category_name,
               filter_id := nw.swiggy_data.filter_id,
               filter_name := nw.swiggy_data.filter_name }]) := rfl
    have hany : ((ex.swiggy_data.sources.getD []).any
        (fun s => s.category_name == nw.swiggy_data.category_name &&
                  s.filter_name == nw.swiggy_data.filter_name) = true) ↔
        (nw.swiggy_data.category_name, nw.swiggy_data.filter_name) ∈
          sourceKeys (ex.swiggy_data.sources.getD []) := by
      simp [sourceKeys, List.any_eq_true, List.mem_map, Prod.ext_iff]
    by_cases hb : (ex.swiggy_data.sources.getD []).any
        (fun s => s.category_name == nw.swiggy_data.category_name &&
                  s.filter_name == nw.swiggy_data.filter_name) = true
    · refine ⟨ex.swiggy_data.sources.getD [], ?_, hany.mp hb, ?_, h3⟩
      · rw [hsrc, if_pos hb]
      · intro k
        exact ⟨Or.inl, fun h => h.elim id (fun hk => hk ▸ hany.mp hb)⟩
    · have hnm : (nw.swiggy_data.category_name, nw.swiggy_data.filter_name) ∉
          sourceKeys (ex.swiggy_data.sources.getD []) := fun h => hb (hany.mpr h)
      refine ⟨ex.swiggy_data.sources.getD [] ++
        [{ category_id := nw.swiggy_data.category_id,
           category_name := nw.swiggy_data.category_name,
           filter_id := nw.swiggy_data.filter_id,
           filter_name := nw.swiggy_data.filter_name }], ?_, ?_, ?_, ?_⟩
      · rw [hsrc, if_neg hb]
      · simp [sourceKeys]
      · intro k
        simp only [sourceKeys, List.map_append, List.map_cons, List.map_nil,
          List.mem_append, List.mem_singleton]
      · simp only [sourceKeys, List.map_append, List.map_cons, List.map_nil]
        rw [List.nodup_append]
        refine ⟨h3, List.nodup_singleton _, ?_⟩
        intro k hk hk2
        simp only [List.mem_singleton] at hk2
        exact hnm (hk2 ▸ hk)

/-- C7, witness for `merge_unions_without_backfill` at the concrete pair of
observations of product p1. -/
theorem merge_unions_without_backfill_witness :
    (c7ExistingRec.categories.Nodup ∧ c7ExistingRec.filters.Nodup ∧
      (sourceKeys (c7ExistingRec.swiggy_data.sources.getD [])).Nodup) ∧
    ((V3.merge_product_data c7ExistingRec c7NewRec).product_id
        = c7ExistingRec.product_id ∧
     (V3.merge_product_data c7ExistingRec c7NewRec).display_name
        = c7ExistingRec.display_name ∧
     (V3.merge_product_data c7ExistingRec c7NewRec).brand = c7ExistingRec.brand ∧
     (V3.merge_product_data c7ExistingRec c7NewRec).quantity
        = c7ExistingRec.quantity ∧
     c7NewRec.swiggy_data.category_name
        ∈ (V3.merge_product_data c7ExistingRec c7NewRec).categories ∧
     (∀ x, x ∈ (V3.merge_product_data c7ExistingRec c7NewRec).categories ↔
       x ∈ c7ExistingRec.categories ∨ x = c7NewRec.swiggy_data.category_name) ∧
     (V3.merge_product_data c7ExistingRec c7NewRec).categories.Nodup ∧
     (∀ fn, c7NewRec.swiggy_data.filter_name = some fn →
       fn ∈ (V3.merge_product_data c7ExistingRec c7NewRec).filters) ∧
     (∀ x, x ∈ (V3.merge_product_data c7ExistingRec c7NewRec).filters →
       x ∈ c7ExistingRec.filters ∨ c7NewRec.swiggy_data.filter_name = some x) ∧
     (V3.merge_product_data c7ExistingRec c7NewRec).filters.Nodup ∧
     (∃ l, (V3.merge_product_data c7ExistingRec c7NewRec).swiggy_data.sources
          = some l ∧
       (c7NewRec.swiggy_data.category_name, c7NewRec.swiggy_data.filter_name)
          ∈ sourceKeys l ∧
       (∀ k, k ∈ sourceKeys l ↔
         k ∈ sourceKeys (c7ExistingRec.swiggy_data.sources.getD []) ∨
         k = (c7NewRec.swiggy_data.category_name,
              c7NewRec.swiggy_data.filter_name)) ∧
       (sourceKeys l).Nodup)) :=
  ⟨⟨by decide, by decide, by decide⟩,
   merge_unions_without_backfill c7ExistingRec c7NewRec (by decide) (by decide)
     (by decide)⟩

/-- Characterization of the discovery dedup loop: every scheduled category's
id is absent from the incoming seen-set, and the scheduled entry is built
from the first eligible item of the input list bearing that id. -/
theorem get_unique_spec (folder : String → V2.Store) :
    ∀ (items : List V2.Item) (seen : List String) (c : V2.UniqueCat),
    c ∈ V2.get_unique_discovered_categories folder items seen →
    seen.contains c.id = false ∧
    ∃ it, items.find? (fun x => eligibleItem folder x && x.id == c.id) = some it ∧
      c = V2.mkUniqueCat it := by
  intro items
  induction items with
  | nil =>
    intro seen c hc
    simp [V2.get_unique_discovered_categories] at hc
  | cons it rest ih =>
    intro seen c hc
    rw [V2.get_unique_discovered_categories] at hc
    split_ifs at hc with ht hs hfs
    · -- the item is not a related category: the head fails the predicate
      obtain ⟨hseen, it', hfind, hceq⟩ := ih seen c hc
      refine ⟨hseen, it', ?_, hceq⟩
      rw [List.find?_cons_of_neg, hfind]
      have htype : (it.type == "related_category") = false :=
        beq_eq_false_iff_ne.mpr ht
      simp [eligibleItem, htype]
    · -- the id was already seen: it cannot equal the scheduled id
      obtain ⟨hseen, it', hfind, hceq⟩ := ih seen c hc
      refine ⟨hseen, it', ?_, hceq⟩
      rw [List.find?_cons_of_neg, hfind]
      have hid : (it.id == c.id) = false := by
        rw [beq_eq_false_iff_ne]
        intro h
        rw [← h] at hseen
        rw [hseen] at hs
        exact Bool.false_ne_true hs
      simp [hid]
    · -- the category is already fully scraped: the head fails the predicate
      obtain ⟨hseen, it', hfind, hceq⟩ := ih seen c hc
      refine ⟨hseen, it', ?_, hceq⟩
      rw [List.find?_cons_of_neg, hfind]
      simp [eligibleItem, hfs]
    · -- the head is scheduled
      rcases List.mem_cons.mp hc with hceq | hctail
      · subst hceq
        have hcid : (V2.mkUniqueCat it).id = it.id := rfl
        constructor
        · rw [hcid]
          exact Bool.eq_false_iff.mpr hs
        · refine ⟨it, ?_, rfl⟩
          rw [List.find?_cons_of_pos]
          rw [hcid]
          have htype : (it.type == "related_category") = true := by
            rw [beq_iff_eq]
            by_contra h
            exact ht h
          simp [eligibleItem, htype, hfs]
      · obtain ⟨hseen, it', hfind, hceq⟩ := ih (it.id :: seen) c hctail
        have hsplit : (c.id == it.id) = false ∧ seen.contains c.id = false := by
          have : (it.id :: seen).contains c.id = (c.id == it.id || seen.contains c.id) := rfl
          rw [this] at hseen
          exact ⟨(Bool.or_eq_false_iff.mp hseen).1, (Bool.or_eq_false_iff.mp hseen).2⟩
        refine ⟨hsplit.2, it', ?_, hceq⟩
        rw [List.find?_cons_of_neg, hfind]
        have hid : (it.id == c.id) = false := by
          rw [beq_eq_false_iff_ne]
          intro h
          have := beq_eq_false_iff_ne.mp hsplit.1
          exact this h.symm
        simp [hid]

/-- The ids of the scheduled categories are pairwise distinct, for any
incoming seen-set. -/
theorem get_unique_ids_nodup (folder : String → V2.Store) :
    ∀ (items : List V2.Item) (seen : List String),
    ((V2.get_unique_discovered_categories folder items seen).map (·.id)).Nodup := by
  intro items
  induction items with
  | nil =>
    intro seen
    simp [V2.get_unique_discovered_categories]
  | cons it rest ih =>
    intro seen
    rw [V2.get_unique_discovered_categories]
    split_ifs with ht hs hfs
    · exact ih seen
    · exact ih seen
    · exact ih seen
    · rw [List.map_cons, List.nodup_cons]
      refine ⟨?_, ih (it.id :: seen)⟩
      intro hmem
      rw [List.mem_map] at hmem
      obtain ⟨c, hc, hcid⟩ := hmem
      have hseen := (get_unique_spec folder rest (it.id :: seen) c hc).1
      have hcontains : (it.id :: seen).contains c.id = (c.id == it.id || seen.contains c.id) := rfl
      rw [hcontains] at hseen
      have := (Bool.or_eq_false_iff.mp hseen).1
      rw [beq_eq_false_iff_ne] at this
      exact this hcid

/-- C6: at most one crawl target per discovered id is ever scheduled — the
scheduled list has pairwise distinct ids, every scheduled category is not
already fully scraped in the persistent store, and each scheduled entry is
built from the first eligible occurrence of its id in the discovery input
(first occurrence wins). -/
theorem discovery_dedup_invariant (folder : String → V2.Store)
    (items : List V2.Item) :
    ((V2.get_unique_discovered_categories folder items []).map (·.id)).Nodup ∧
    (∀ c ∈ V2.get_unique_discovered_categories folder items [],
      V2.is_category_fully_scraped (folder c.category_name) = false) ∧
    (∀ c ∈ V2.get_unique_discovered_categories folder items [],
      ∃ it, items.find? (fun x => eligibleItem folder x && x.id == c.id)
          = some it ∧ c = V2.mkUniqueCat it) := by
  refine ⟨get_unique_ids_nodup folder items [], ?_, ?_⟩
  · intro c hc
    obtain ⟨-, it, hfind, hceq⟩ := get_unique_spec folder items [] c hc
    have hpred := List.find?_some hfind
    have helig : (it.type == "related_category") = true ∧
        (!V2.is_category_fully_scraped (folder it.displayName)) = true := by
      have h := hpred
      simp only [eligibleItem, Bool.and_eq_true] at h
      exact h.1
    have hscr : V2.is_category_fully_scraped (folder it.displayName) = false := by
      simpa using helig.2
    rw [hceq]
    exact hscr
  · intro c hc
    exact (get_unique_spec folder items [] c hc).2

/-- Flattening the batch partition recovers the original target list. -/
theorem chunkList_join_aux (n : Nat) :
    ∀ (k : Nat) (l : List String), l.length ≤ k → (chunkList n l).flatten = l := by
  intro k
  induction k with
  | zero =>
    intro l hl
    have hnil : l = [] := List.length_eq_zero.mp (Nat.le_zero.mp hl)
    subst hnil
    simp [chunkList]
  | succ k ih =>
    intro l hl
    cases l with
    | nil => simp [chunkList]
    | cons x xs =>
      rw [chunkList]
      rw [List.flatten_cons]
      rw [ih (xs.drop (n - 1)) ?hlen]
      · rw [List.cons_append, List.take_append_drop]
      case hlen =>
        rw [List.length_drop]
        simp only [List.length_cons] at hl
        omega

/-- Flattening the batch partition recovers the original target list (top
form). -/
theorem chunkList_join (n : Nat) (l : List String) :
    (chunkList n l).flatten = l :=
  chunkList_join_aux n l.length l le_rfl

/-- C8: (a) five consecutive rate-limited fetch outcomes starting a page
exhaust `max_retries`: the engine issues exactly those five fetches — all
for the same page and cursor — persists one error record, consumes none of
the remaining script (no further page of this target is fetched), and
returns the counts of the pages already saved, which stay in place (the
trace holds no destructive event); (b) the batch driver gives every target
exactly one result entry computed from that target's own outcome alone, so
one target's failure never aborts its siblings or the run. -/
theorem rate_limit_exhaustion_contained
    (r1 r2 r3 r4 r5 : V2.RawResult) (rest : List V2.RawResult)
    (page offset pages products : Nat)
    (h1 : r1.errorMsg ≠ "" ∧ V2.is_rate_limited r1.statusCode r1.errorMsg = true)
    (h2 : r2.errorMsg ≠ "" ∧ V2.is_rate_limited r2.statusCode r2.errorMsg = true)
    (h3 : r3.errorMsg ≠ "" ∧ V2.is_rate_limited r3.statusCode r3.errorMsg = true)
    (h4 : r4.errorMsg ≠ "" ∧ V2.is_rate_limited r4.statusCode r4.errorMsg = true)
    (h5 : r5.errorMsg ≠ "" ∧ V2.is_rate_limited r5.statusCode r5.errorMsg = true) :
    V2.runLoop (r1 :: r2 :: r3 :: r4 :: r5 :: rest) page offset 0 0 pages products
      = ([V2.Event.fetch page offset, V2.Event.fetch page offset,
          V2.Event.fetch page offset, V2.Event.fetch page offset,
          V2.Event.fetch page offset, V2.Event.saveError page offset],
         some (pages, products)) ∧
    (∀ (chunkSize : Nat) (targets : List String)
        (outcome : String → TargetOutcome),
      process_discovered_categories_in_parallel chunkSize targets outcome
        = targets.map (fun c => resultEntry (outcome c)) ∧
      (process_discovered_categories_in_parallel chunkSize targets outcome).length
        = targets.length) := by
  constructor
  · simp [V2.runLoop, V2.max_retries, h1.1, h1.2, h2.1, h2.2, h3.1, h3.2,
      h4.1, h4.2, h5.1, h5.2]
  · intro chunkSize targets outcome
    have hfold : ∀ (L : List (List String)) (acc : List ResultRec),
        L.foldl (fun a c => a ++ c.map (fun x => resultEntry (outcome x))) acc
          = acc ++ L.flatten.map (fun x => resultEntry (outcome x)) := by
      intro L
      induction L with
      | nil => intro acc; simp
      | cons c L ihL =>
        intro acc
        rw [List.foldl_cons, ihL, List.flatten_cons, List.map_append,
          List.append_assoc]
    have hmain : process_discovered_categories_in_parallel chunkSize targets outcome
        = targets.map (fun c => resultEntry (outcome c)) := by
      rw [process_discovered_categories_in_parallel, hfold,
        chunkList_join chunkSize targets]
      simp
    exact ⟨hmain, by rw [hmain, List.length_map]⟩

/-- C8, witness for `rate_limit_exhaustion_contained`: five scripted 202
responses for page 3 at cursor 30, with two pages already saved. -/
theorem rate_limit_exhaustion_contained_witness :
    (rateLimitedResult.errorMsg ≠ "" ∧
     V2.is_rate_limited rateLimitedResult.statusCode rateLimitedResult.errorMsg
       = true) ∧
    (V2.runLoop (rateLimitedResult :: rateLimitedResult :: rateLimitedResult ::
        rateLimitedResult :: rateLimitedResult :: []) 3 30 0 0 2 11
      = ([V2.Event.fetch 3 30, V2.Event.fetch 3 30, V2.Event.fetch 3 30,
          V2.Event.fetch 3 30, V2.Event.fetch 3 30, V2.Event.saveError 3 30],
         some (2, 11)) ∧
     (∀ (chunkSize : Nat) (targets : List String)
         (outcome : String → TargetOutcome),
       process_discovered_categories_in_parallel chunkSize targets outcome
         = targets.map (fun c => resultEntry (outcome c)) ∧
       (process_discovered_categories_in_parallel chunkSize targets
           outcome).length = targets.length)) :=
  ⟨⟨by decide, by decide⟩,
   rate_limit_exhaustion_contained rateLimitedResult rateLimitedResult
     rateLimitedResult rateLimitedResult rateLimitedResult [] 3 30 2 11
     ⟨by decide, by decide⟩ ⟨by decide, by decide⟩ ⟨by decide, by decide⟩
     ⟨by decide, by decide⟩ ⟨by decide, by decide⟩⟩
